import Mathlib

/-!
Verification development for the listing-discovery and pagination engine of
`poshmark_scraper.py`: the method `get_listing_links` together with its nested
helpers `extract_listings`, `find_next_max_id`, `find_page_group_id`, the
fallback-cursor synthesis, and the HTML fallback scan.

Decoded API responses are Python objects built from JSON: mappings, sequences,
strings, integers, booleans and `None`.  They are modelled by the mutual
family `Json`/`JList`/`JObj` below; a Python dictionary is an association
structure with distinct keys kept in insertion order.  The network, the HTML
parser and the file system are collaborators; their outputs (the initial page
body, the script texts, and the decoded response of each successive request)
enter the model as explicit arguments.
-/

mutual

inductive Json where
  | null : Json
  | bool : Bool → Json
  | num : Int → Json
  | str : String → Json
  | arr : JList → Json
  | obj : JObj → Json
deriving DecidableEq

inductive JList where
  | nil : JList
  | cons : Json → JList → JList
deriving DecidableEq

inductive JObj where
  | nil : JObj
  | cons : String → Json → JObj → JObj
deriving DecidableEq

end

instance : Inhabited Json := ⟨Json.null⟩

/-- The underlying Lean list of a modelled Python list. -/
def JList.toList : JList → List Json
  | JList.nil => []
  | JList.cons x tl => x :: JList.toList tl

/-- First binding of key `k`, mirroring `d[k]` on a Python dict (keys are
unique in a dict, so first binding is the binding). -/
def JObj.lookup (k : String) : JObj → Option Json
  | JObj.nil => none
  | JObj.cons k2 v tl => if k2 = k then some v else JObj.lookup k tl

/-- Concatenation of two association structures. -/
def JObj.append : JObj → JObj → JObj
  | JObj.nil, o => o
  | JObj.cons k v tl, o => JObj.cons k v (JObj.append tl o)

/-- `d.get(k)` on a Python dict: the stored value, or `None` when absent. -/
def getJ (kvs : JObj) (k : String) : Json :=
  (JObj.lookup k kvs).getD Json.null

/-- `k in d` on a Python dict. -/
def hasKey (kvs : JObj) (k : String) : Bool :=
  (JObj.lookup k kvs).isSome

/-- Python truthiness of a decoded value: `None`, `False`, `0`, `""`, `[]`
and the empty dict are falsy, everything else is truthy. -/
def truthy : Json → Bool
  | Json.null => false
  | Json.bool b => b
  | Json.num n => n != 0
  | Json.str s => s != ""
  | Json.arr xs => !(xs matches JList.nil)
  | Json.obj kvs => !(kvs matches JObj.nil)

/-- Python `a or b` on values: the first operand when truthy, else the
second. -/
def pyOr (a b : Json) : Json :=
  if truthy a then a else b

mutual

/-- Python `repr` of a decoded value, as produced inside an f-string for
non-string values.  Quote escaping inside nested strings is elided: every
id interpolated by the source is a scalar, where this rendering is exact. -/
def pyRepr : Json → String
  | Json.null => "None"
  | Json.bool true => "True"
  | Json.bool false => "False"
  | Json.num n => toString n
  | Json.str s => "\x27" ++ s ++ "\x27"
  | Json.arr xs => "[" ++ pyReprL xs ++ "]"
  | Json.obj kvs => "\x7b" ++ pyReprO kvs ++ "\x7d"

def pyReprL : JList → String
  | JList.nil => ""
  | JList.cons x JList.nil => pyRepr x
  | JList.cons x tl => pyRepr x ++ ", " ++ pyReprL tl

def pyReprO : JObj → String
  | JObj.nil => ""
  | JObj.cons k v JObj.nil => "\x27" ++ k ++ "\x27: " ++ pyRepr v
  | JObj.cons k v tl => "\x27" ++ k ++ "\x27: " ++ pyRepr v ++ ", " ++ pyReprO tl

end

/-- Python `str(x)`, as interpolated into an f-string. -/
def pyStr : Json → String
  | Json.str s => s
  | j => pyRepr j

/-- `listing.get('id') or listing.get('listing_id') or listing.get('post_id')`
(src lines 465 and 600): first truthy candidate id, else the last value. -/
def listingIdOf (kvs : JObj) : Json :=
  pyOr (getJ kvs "id") (pyOr (getJ kvs "listing_id") (getJ kvs "post_id"))

/-- `listing.get('id') or listing.get('listing_id')` (src line 594), the
variant used only for the `seen_ids` bookkeeping inside the pagination loop. -/
def seenIdOf (kvs : JObj) : Json :=
  pyOr (getJ kvs "id") (getJ kvs "listing_id")

/-- ASCII fragment of the regex class `\s` / of `str.strip()` whitespace.
Titles in every claim are ASCII, where this is exact. -/
def isPySpace (c : Char) : Bool :=
  c = ' ' || c = '\t' || c = '\n' || c = '\r' || c = '\x0b' || c = '\x0c'

/-- ASCII fragment of the regex class `\w`: alphanumeric or underscore. -/
def isPyWordChar (c : Char) : Bool :=
  c.isAlphanum || c = '_'

/-- `re.sub(r'[^\w\s-]', '', title).strip().replace(' ', '-')`
(src lines 478, 613, 850): drop every character outside `\w`, `\s`, `-`;
strip surrounding whitespace; turn each space into a hyphen.  No lowercasing
happens anywhere in this pipeline. -/
def title_slug (t : String) : String :=
  let kept := t.data.filter fun c => isPyWordChar c || isPySpace c || c = '-'
  let stripped := ((kept.dropWhile isPySpace).reverse.dropWhile isPySpace).reverse
  String.mk (stripped.map fun c => if c = ' ' then '-' else c)

/-- The keys whose presence makes a mapping "look like a listing"
(src lines 442, 560, 808). -/
def shapeKeys : List String :=
  ["canonical_path", "path", "id", "title", "listing_id", "post_id"]

def looksLikeListing (kvs : JObj) : Bool :=
  shapeKeys.any fun k => hasKey kvs k

/-- Keys never descended into by `extract_listings` (src lines 446, 564, 811). -/
def excludedKeys : List String :=
  ["metadata", "facets", "summaries"]

mutual

/-- `extract_listings(obj, path, depth)` (src lines 547-575, identical copies
at 429-457 and 797-819).  A node deeper than the depth bound yields nothing;
at a mapping the keys `posts`, `data`, `listings` are tried in that order and
the first one bound to a sequence is returned outright; a mapping carrying any
shape-characteristic key is itself a single listing; otherwise all values
outside the excluded keys are searched and their results concatenated
(`listings.extend(...)`).  At a sequence whose first element is a mapping with
a shape-characteristic key the whole sequence is returned; otherwise elements
are searched one by one and concatenated. -/
def extract_listings (j : Json) (depth : Nat) : List Json :=
  if depth > 10 then []
  else
    match j with
    | Json.obj kvs =>
        match JObj.lookup "posts" kvs with
        | some (Json.arr l) => l.toList
        | _ =>
          match JObj.lookup "data" kvs with
          | some (Json.arr l) => l.toList
          | _ =>
            match JObj.lookup "listings" kvs with
            | some (Json.arr l) => l.toList
            | _ =>
              if looksLikeListing kvs then [Json.obj kvs]
              else extractO kvs (depth + 1)
    | Json.arr xs =>
        match xs with
        | JList.cons (Json.obj kvs0) _ =>
            if looksLikeListing kvs0 then xs.toList else extractL xs (depth + 1)
        | _ => extractL xs (depth + 1)
    | _ => []

/-- The `for key, value in obj.items()` recursion of `extract_listings`,
skipping the excluded keys; `depth` is the depth of the child calls. -/
def extractO : JObj → Nat → List Json
  | JObj.nil, _ => []
  | JObj.cons k v tl, depth =>
      (if k ∈ excludedKeys then [] else extract_listings v depth) ++ extractO tl depth

/-- The `for item in obj` recursion of `extract_listings`. -/
def extractL : JList → Nat → List Json
  | JList.nil, _ => []
  | JList.cons x tl, depth => extract_listings x depth ++ extractL tl depth

end

/-- The `url_path` produced for one listing mapping by the if/elif chain at
src lines 599-617 (identical copies at 469-481 and 841-853): `canonical_path`
value when that key is present, else `path`, else `url`, else the synthesized
title slug when a `title` key and a truthy id exist, else the bare-id path
when the id is truthy, else `None`.  A truthy non-string `title` makes
`re.sub` raise `TypeError` in the source and aborts the page; that branch is
modelled as `None` and is outside every claim. -/
def resolvedPath (kvs : JObj) : Json :=
  if hasKey kvs "canonical_path" then getJ kvs "canonical_path"
  else if hasKey kvs "path" then getJ kvs "path"
  else if hasKey kvs "url" then getJ kvs "url"
  else if hasKey kvs "title" && truthy (listingIdOf kvs) then
    match getJ kvs "title" with
    | Json.str t => Json.str ("/listing/" ++ title_slug t ++ "-" ++ pyStr (listingIdOf kvs))
    | _ => Json.null
  else if truthy (listingIdOf kvs) then Json.str ("/listing/" ++ pyStr (listingIdOf kvs))
  else Json.null

/-- `s.startswith(pre)`, evaluated on the underlying characters. -/
def strStartsWith (s pre : String) : Bool :=
  pre.data.isPrefixOf s.data

/-- Absolutization at src lines 620-621: a path not starting with `http` is
prefixed with the fixed origin. -/
def absolutize (p : String) : String :=
  if strStartsWith p "http" then p else "https://poshmark.com" ++ p

/-- The absolute URL contributed by one extracted listing, or `none` when the
listing is skipped: non-mapping listings are ignored (src line 592), a falsy
`url_path` fails the `if url_path:` guard (src line 619), and a truthy
non-string `url_path` would raise `AttributeError` at `startswith` in the
source — no claim reaches that case, modelled as no contribution. -/
def linkOf : Json → Option String
  | Json.obj kvs =>
      match resolvedPath kvs with
      | Json.str p => if p = "" then none else some (absolutize p)
      | _ => none
  | _ => none

/-- The per-page listing walk of the pagination loop (src lines 590-624):
threads `listing_links`, `seen_ids` and `new_count`; appends a resolved URL
only when it is not already an element of `listing_links` (string membership);
`seen_ids` collects truthy ids but is never read for link deduplication. -/
def processPageListings : List Json → List String → List Json → List String × List Json × Nat
  | [], links, seen => (links, seen, 0)
  | l :: rest, links, seen =>
      match l with
      | Json.obj kvs =>
          let sid := seenIdOf kvs
          let seen2 := if truthy sid ∧ sid ∉ seen then seen ++ [sid] else seen
          match linkOf (Json.obj kvs) with
          | some url =>
              if url ∈ links then processPageListings rest links seen2
              else
                let r := processPageListings rest (links ++ [url]) seen2
                (r.1, r.2.1, r.2.2 + 1)
          | none => processPageListings rest links seen2
      | _ => processPageListings rest links seen

/-- The listing walk over the initial API response (src lines 463-487): same
link resolution and deduplication, but `seen_ids` uses the three-key id
lookup and no `new_count` is kept. -/
def processInitialListings : List Json → List String → List Json → List String × List Json
  | [], links, seen => (links, seen)
  | l :: rest, links, seen =>
      match l with
      | Json.obj kvs =>
          let sid := listingIdOf kvs
          let seen2 := if truthy sid ∧ sid ∉ seen then seen ++ [sid] else seen
          match linkOf (Json.obj kvs) with
          | some url =>
              if url ∈ links then processInitialListings rest links seen2
              else processInitialListings rest (links ++ [url]) seen2
          | none => processInitialListings rest links seen2
      | _ => processInitialListings rest links seen

mutual

/-- `find_next_max_id(obj)` of the pagination loop (src lines 630-645,
identical copy at 865-880), closed over the current `max_id` value `cur`:
at a mapping the key `next_max_id` is returned when present (even falsy),
else a present `max_id` whose value differs from `cur`, else the values are
searched in order and the first truthy recursive result is returned; a
sequence is searched element by element; everything else yields `None`. -/
def find_next_max_id (cur : Json) : Json → Json
  | Json.obj kvs =>
      match JObj.lookup "next_max_id" kvs with
      | some v => v
      | none =>
        match JObj.lookup "max_id" kvs with
        | some v => if v = cur then findNextO cur kvs else v
        | none => findNextO cur kvs
  | Json.arr xs => findNextL cur xs
  | _ => Json.null

def findNextO (cur : Json) : JObj → Json
  | JObj.nil => Json.null
  | JObj.cons _ v tl =>
      let r := find_next_max_id cur v
      if truthy r then r else findNextO cur tl

def findNextL (cur : Json) : JList → Json
  | JList.nil => Json.null
  | JList.cons x tl =>
      let r := find_next_max_id cur x
      if truthy r then r else findNextL cur tl

end

mutual

/-- The retry-time `find_next_max_id` of the HTML fallback block (src lines
728-743): identical to the loop version except that a present `max_id` is
returned unconditionally. -/
def find_next_max_id_plain : Json → Json
  | Json.obj kvs =>
      match JObj.lookup "next_max_id" kvs with
      | some v => v
      | none =>
        match JObj.lookup "max_id" kvs with
        | some v => v
        | none => findNextPlainO kvs
  | Json.arr xs => findNextPlainL xs
  | _ => Json.null

def findNextPlainO : JObj → Json
  | JObj.nil => Json.null
  | JObj.cons _ v tl =>
      let r := find_next_max_id_plain v
      if truthy r then r else findNextPlainO tl

def findNextPlainL : JList → Json
  | JList.nil => Json.null
  | JList.cons x tl =>
      let r := find_next_max_id_plain x
      if truthy r then r else findNextPlainL tl

end

mutual

/-- `find_page_group_id(obj)` (src lines 411-424): the value of the first
`page_group_id` key found, preferring the current mapping, else the first
truthy recursive result in traversal order. -/
def find_page_group_id : Json → Json
  | Json.obj kvs =>
      match JObj.lookup "page_group_id" kvs with
      | some v => v
      | none => findPgO kvs
  | Json.arr xs => findPgL xs
  | _ => Json.null

def findPgO : JObj → Json
  | JObj.nil => Json.null
  | JObj.cons _ v tl =>
      let r := find_page_group_id v
      if truthy r then r else findPgO tl

def findPgL : JList → Json
  | JList.nil => Json.null
  | JList.cons x tl =>
      let r := find_page_group_id x
      if truthy r then r else findPgL tl

end

mutual

/-- Whether a key named `k` occurs anywhere in the document (a statement-side
predicate used to express absence of cursor keys; not part of the source). -/
def hasKeyDeep (k : String) : Json → Bool
  | Json.obj kvs => hasKey kvs k || hasKeyDeepO k kvs
  | Json.arr xs => hasKeyDeepL k xs
  | _ => false

def hasKeyDeepO (k : String) : JObj → Bool
  | JObj.nil => false
  | JObj.cons _ v tl => hasKeyDeep k v || hasKeyDeepO k tl

def hasKeyDeepL (k : String) : JList → Bool
  | JList.nil => false
  | JList.cons x tl => hasKeyDeep k x || hasKeyDeepL k tl

end

/-- State threaded through one pagination loop (src lines 502-689 for the
primary loop, 754-896 for the restarted one; the loop bodies are identical up
to logging, so one model serves both). -/
structure PagingState where
  links : List String
  seen : List Json
  maxId : Json
  pageNum : Nat
  consecutiveEmpty : Nat

/-- `find_next_max_id(data) if isinstance(data, dict) else None`
(src line 647). -/
def nextCursorOf (cur data : Json) : Json :=
  match data with
  | Json.obj _ => find_next_max_id cur data
  | _ => Json.null

/-- One body execution of the pagination loop on a decoded page `data`
(src lines 577-676): extract; on an empty page bump the empty streak and stop
at two; on a non-empty page reset the streak, walk the listings, then either
adopt a truthy, different next cursor and continue, or stop when fewer than
48 new links were added, or continue unchanged.  The returned flag is `true`
exactly when the loop `break`s after this page. -/
def pageStep (st : PagingState) (data : Json) : PagingState × Bool :=
  let pl := extract_listings data 0
  if pl.isEmpty then
    let ce := st.consecutiveEmpty + 1
    if 2 ≤ ce then ({ st with consecutiveEmpty := ce }, true)
    else ({ st with consecutiveEmpty := ce, pageNum := st.pageNum + 1 }, false)
  else
    let r := processPageListings pl st.links st.seen
    let next := nextCursorOf st.maxId data
    if truthy next ∧ next ≠ st.maxId then
      ({ links := r.1, seen := r.2.1, maxId := next,
         pageNum := st.pageNum + 1, consecutiveEmpty := 0 }, false)
    else if r.2.2 < 48 then
      ({ links := r.1, seen := r.2.1, maxId := st.maxId,
         pageNum := st.pageNum, consecutiveEmpty := 0 }, true)
    else
      ({ links := r.1, seen := r.2.1, maxId := st.maxId,
         pageNum := st.pageNum + 1, consecutiveEmpty := 0 }, false)

/-- The pagination loop driver: `while page_num <= max_pages` around
`pageStep`.  The list supplies the outcome of each successive fetch; `none`
stands for a failed request (non-2xx, network or decode error), which breaks
the loop (src lines 540-542, 679-689); an exhausted list means no further
fetch outcome is observed. -/
def pagingLoop (maxPages : Nat) : PagingState → List (Option Json) → PagingState
  | st, [] => st
  | st, page :: rest =>
      if maxPages < st.pageNum then st
      else
        match page with
        | none => st
        | some data =>
            let r := pageStep st data
            if r.2 then r.1 else pagingLoop maxPages r.1 rest

/-- Characters excluded by the class in `re.findall(r'/listing/[^"\x27<>\s]+',
html_text)` (src line 695). -/
def isUrlStopChar (c : Char) : Bool :=
  c = '"' || c = '\x27' || c = '<' || c = '>' || isPySpace c

/-- Left-to-right, non-overlapping scan for `/listing/[^"\x27<>\s]+`
matches; the fuel is instantiated with the text length, which bounds the
number of scan steps, so it never runs out. -/
def scanUrlsAux : Nat → List Char → List String
  | 0, _ => []
  | _, [] => []
  | f + 1, c :: rest =>
      if "/listing/".data.isPrefixOf (c :: rest) then
        let body := ((c :: rest).drop 9).takeWhile fun ch => !isUrlStopChar ch
        if body.isEmpty then scanUrlsAux f rest
        else String.mk ("/listing/".data ++ body) :: scanUrlsAux f ((c :: rest).drop (9 + body.length))
      else scanUrlsAux f rest

def findListingUrls (s : String) : List String :=
  scanUrlsAux s.length s.data

def isQuoteChar (c : Char) : Bool :=
  c = '"' || c = '\x27'

/-- Attempt to match `["\x27]page_group_id["\x27]\s*:\s*["\x27]([^"\x27]+)["\x27]`
at the head of the text, returning the captured group.  The group class
excludes both quote characters, so the greedy `+` needs no backtracking: the
maximal run must be followed directly by a quote. -/
def matchPgidAt (cs : List Char) : Option String :=
  match cs with
  | [] => none
  | q1 :: r1 =>
      if isQuoteChar q1 ∧ "page_group_id".data.isPrefixOf r1 then
        match r1.drop 13 with
        | [] => none
        | q2 :: r2 =>
            if isQuoteChar q2 then
              match r2.dropWhile isPySpace with
              | [] => none
              | c3 :: r4 =>
                  if c3 = ':' then
                    match r4.dropWhile isPySpace with
                    | [] => none
                    | q3 :: r6 =>
                        if isQuoteChar q3 then
                          let grp := r6.takeWhile fun ch => !isQuoteChar ch
                          if grp.isEmpty then none
                          else
                            match r6.drop grp.length with
                            | q4 :: _ => if isQuoteChar q4 then some (String.mk grp) else none
                            | [] => none
                        else none
                  else none
            else none
      else none

/-- `re.search` for the `page_group_id` pattern: leftmost match wins
(src lines 382, 706).  The fuel is the text length, bounding the scan. -/
def findPgidAux : Nat → List Char → Option String
  | 0, _ => none
  | _, [] => none
  | f + 1, c :: rest =>
      match matchPgidAt (c :: rest) with
      | some g => some g
      | none => findPgidAux f rest

def findPgid (s : String) : Option String :=
  findPgidAux s.length s.data

/-- The script scan of src lines 378-385: the first script text in which the
`page_group_id` pattern matches supplies the value; `None` script bodies are
skipped.  The `'page_group_id' in script.string` pre-check cannot change the
outcome since any pattern match contains that substring, so it is not
modelled separately. -/
def scriptsPgid : List (Option String) → Json
  | [] => Json.null
  | none :: rest => scriptsPgid rest
  | some s :: rest =>
      match findPgid s with
      | some g => Json.str g
      | none => scriptsPgid rest

/-- The raw-document append of src lines 696-699: each scanned path is
absolutized and appended when not already present. -/
def appendHtmlUrls (urls : List String) (links : List String) : List String :=
  urls.foldl
    (fun acc u =>
      let full := if strStartsWith u "http" then u else "https://poshmark.com" ++ u
      if full ∈ acc then acc else acc ++ [full])
    links

/-- Outcome of one successful page fetch: the raw body text and the decoded
document.  The source reads only the decoded document of API pages; bodies
are carried so that statements about which raw text gets scanned are
expressible. -/
structure FetchedPage where
  body : String
  json : Json

def FetchedPage.jsonOf (p : FetchedPage) : Json := p.json

/-- The pre-loop phase of `get_listing_links` (src lines 377-502): script
scan for `page_group_id`, then the initial API call.  When the decoded
initial response is a mapping and no `page_group_id` is known yet, the
response is mined for a `page_group_id`, its listings are walked, and
`max_id` is set from the top-level `next_max_id`/`max_id` keys; otherwise
the initial response contributes nothing.  Returns
(initial links, seen ids, initial `max_id`, `page_group_id`). -/
def initPhase (scripts : List (Option String)) (initResp : Option Json) :
    List String × List Json × Json × Json :=
  let pgid0 := scriptsPgid scripts
  match initResp with
  | some (Json.obj dkvs) =>
      if truthy pgid0 then ([], [], Json.null, pgid0)
      else
        let pgid1 := find_page_group_id (Json.obj dkvs)
        let r := processInitialListings (extract_listings (Json.obj dkvs) 0) [] []
        let mid := pyOr (getJ dkvs "next_max_id") (getJ dkvs "max_id")
        (r.1, r.2, mid, pgid1)
  | _ => ([], [], Json.null, pgid0)

/-- The HTML fallback block of src lines 692-896, entered after the primary
loop with its final state `st` and the cached `page_group_id`.  When fewer
than 50 links were accumulated, the *initially fetched* storefront body
(`response.text`, fetched at src line 371) is scanned for `/listing/...`
paths and the results are appended; then, only when both `max_id` and
`page_group_id` are falsy and at least one link exists, recovery is
attempted — the `page_group_id` regex over the same initial body, and one
extra API call (`retryResp`, `none` when it fails) mined with the
unconditional `max_id` search — and when a token results and the loop's page
counter is still within the ceiling, paging restarts from page 2 with the
empty streak reset. -/
def fallbackPhase (htmlText : String) (retryResp : Option Json)
    (restartPages : List (Option FetchedPage)) (maxPages : Nat)
    (st : PagingState) (pgid : Json) : List String :=
  if st.links.length < 50 then
    let links1 := appendHtmlUrls (findListingUrls htmlText) st.links
    if ¬ truthy st.maxId ∧ ¬ truthy pgid ∧ 0 < links1.length then
      let pgid2 :=
        match findPgid htmlText with
        | some g => Json.str g
        | none => pgid
      let maxId2 :=
        match retryResp with
        | some d2 => find_next_max_id_plain d2
        | none => st.maxId
      if (truthy maxId2 ∨ truthy pgid2) ∧ st.pageNum ≤ maxPages then
        (pagingLoop maxPages
          { links := links1, seen := st.seen, maxId := maxId2,
            pageNum := 2, consecutiveEmpty := 0 }
          (restartPages.map (Option.map FetchedPage.jsonOf))).links
      else links1
    else links1
  else st.links

/-- `get_listing_links(max_pages)` (src lines 352-899) as a function of the
collaborator outcomes: whether the storefront fetch succeeded and its body,
the script texts seen by the HTML parser, the decoded initial API response
(`none` on failure), the successive page-fetch outcomes of the primary loop,
the decoded retry response of the fallback block, and the page-fetch
outcomes of the restarted loop. -/
def get_listing_links (htmlOk : Bool) (htmlText : String)
    (scripts : List (Option String)) (initResp : Option Json)
    (pages : List (Option FetchedPage)) (retryResp : Option Json)
    (restartPages : List (Option FetchedPage)) (maxPages : Nat) : List String :=
  if ¬ htmlOk then []
  else
    let ip := initPhase scripts initResp
    let pn0 := if ip.1.isEmpty then 1 else 2
    let st := pagingLoop maxPages
      { links := ip.1, seen := ip.2.1, maxId := ip.2.2.1, pageNum := pn0,
        consecutiveEmpty := 0 }
      (pages.map (Option.map FetchedPage.jsonOf))
    fallbackPhase htmlText retryResp restartPages maxPages st ip.2.2.2

/-- Python `json.dumps` escaping of one character with `ensure_ascii=True`:
quote and backslash get two-character escapes, the named control characters
their short escapes, other control and all non-ASCII characters `\uXXXX`
(astral characters as a surrogate pair). -/
def hex4 (n : Nat) : String :=
  let d := fun (m : Nat) =>
    String.singleton ("0123456789abcdef".data.getD (m % 16) '0')
  d (n / 4096) ++ d (n / 256) ++ d (n / 16) ++ d n

def jsonEscapeChar (c : Char) : String :=
  if c = '"' then "\\\""
  else if c = '\\' then "\\\\"
  else if c = '\n' then "\\n"
  else if c = '\t' then "\\t"
  else if c = '\r' then "\\r"
  else if c = '\x08' then "\\b"
  else if c = '\x0c' then "\\f"
  else if c.toNat < 32 then "\\u" ++ hex4 c.toNat
  else if c.toNat < 127 then String.singleton c
  else if c.toNat < 65536 then "\\u" ++ hex4 c.toNat
  else
    let v := c.toNat - 65536
    "\\u" ++ hex4 (55296 + v / 1024) ++ "\\u" ++ hex4 (56320 + v % 1024)

def jsonEscapeString (s : String) : String :=
  String.join (s.data.map jsonEscapeChar)

/-- `json.dumps(max_id_data)` for the literal dict built at src lines
522-526 (copy at 773-777), with Python's default separators `', '` and
`': '`. -/
def dumpsMaxIdData (pageNum : Nat) (pageGroupId : String) : String :=
  "\x7b\"max_ids\": [" ++ toString (48 * (pageNum - 1)) ++
    "], \"page_num\": " ++ toString pageNum ++
    ", \"page_group_id\": \"" ++ jsonEscapeString pageGroupId ++ "\"\x7d"

/-- The UTF-8 bytes of `.encode()`.  `json.dumps` output with
`ensure_ascii=True` is pure ASCII, where byte values and code points agree. -/
def strBytes (s : String) : List Nat :=
  s.data.map Char.toNat

def b64Char (n : Nat) : Char :=
  "ABCDEFGHIJKLMNOPQRSTUVWXYZabcdefghijklmnopqrstuvwxyz0123456789+/".data.getD n '?'

/-- Standard base64 of a byte list, with `=` padding. -/
def base64Encode : List Nat → String
  | [] => ""
  | [a] =>
      String.mk [b64Char (a / 4), b64Char (a % 4 * 16)] ++ "=="
  | [a, b] =>
      String.mk [b64Char (a / 4), b64Char (a % 4 * 16 + b / 16), b64Char (b % 16 * 4)] ++ "="
  | a :: b :: c :: rest =>
      String.mk [b64Char (a / 4), b64Char (a % 4 * 16 + b / 16),
        b64Char (b % 16 * 4 + c / 64), b64Char (c % 64)] ++ base64Encode rest

/-- `.rstrip('=')` (src line 529). -/
def rstripEq (s : String) : String :=
  String.mk ((s.data.reverse.dropWhile fun c => c = '=').reverse)

/-- The synthesized fallback cursor of src lines 522-530: the literal marker
`ENC_` followed by the padding-stripped base64 of `json.dumps` of
`{"max_ids": [48*(page_num-1)], "page_num": page_num,
"page_group_id": page_group_id}`. -/
def synthCursor (pageNum : Nat) (pageGroupId : String) : String :=
  "ENC_" ++ rstripEq (base64Encode (strBytes (dumpsMaxIdData pageNum pageGroupId)))

def b64Index (c : Char) : Nat :=
  (("ABCDEFGHIJKLMNOPQRSTUVWXYZabcdefghijklmnopqrstuvwxyz0123456789+/".data.findIdx?
    fun x => x = c).getD 0)

/-- Base64 decoding of an unpadded string (statement-side, used to check the
synthesized cursor): full groups of four sextets give three bytes, a trailing
group of two or three sextets gives one or two bytes. -/
def base64DecodeNoPadL : List Char → List Nat
  | [a, b] => [b64Index a * 4 + b64Index b / 16]
  | [a, b, c] =>
      [b64Index a * 4 + b64Index b / 16,
       b64Index b % 16 * 16 + b64Index c / 4]
  | a :: b :: c :: d :: rest =>
      (b64Index a * 4 + b64Index b / 16) ::
      (b64Index b % 16 * 16 + b64Index c / 4) ::
      (b64Index c % 4 * 64 + b64Index d) ::
      base64DecodeNoPadL rest
  | _ => []

def base64DecodeNoPad (s : String) : List Nat :=
  base64DecodeNoPadL s.data

/-- The slug pipeline exactly as the amended claim words it: remove every
character that is not (ASCII) alphanumeric, whitespace, underscore or
hyphen; strip surrounding whitespace; replace each space with a hyphen — and
nothing else, in particular no lowercasing.  Stated from the claim text, to
be compared with `title_slug` from the source. -/
def slugSpec (t : String) : String :=
  let kept := t.data.filter fun c => c.isAlphanum || isPySpace c || c = '_' || c = '-'
  let stripped := ((kept.dropWhile isPySpace).reverse.dropWhile isPySpace).reverse
  String.mk (stripped.map fun c => if c = ' ' then '-' else c)

/-- Conversion from a Lean list, used to build concrete documents. -/
def JList.ofList : List Json → JList
  | [] => JList.nil
  | x :: xs => JList.cons x (JList.ofList xs)

theorem hasKey_false_iff (kvs : JObj) (k : String) :
    hasKey kvs k = false ↔ JObj.lookup k kvs = none := by
  cases h : JObj.lookup k kvs <;> simp [hasKey, h]

theorem hasKey_true_of_lookup {kvs : JObj} {k : String} {v : Json}
    (h : JObj.lookup k kvs = some v) : hasKey kvs k = true := by
  simp [hasKey, h]

theorem truthy_pyOr_false {a b : Json} (h : truthy (pyOr a b) = false) :
    truthy a = false ∧ truthy b = false := by
  by_cases ha : truthy a = true
  · exfalso
    rw [pyOr, if_pos ha] at h
    simp [ha] at h
  · have ha' : truthy a = false := by simpa using ha
    rw [pyOr, if_neg (by simp [ha'])] at h
    exact ⟨ha', h⟩

theorem seenIdOf_falsy {kvs : JObj} (h : truthy (listingIdOf kvs) = false) :
    truthy (seenIdOf kvs) = false := by
  have h1 := truthy_pyOr_false (a := getJ kvs "id")
    (b := pyOr (getJ kvs "listing_id") (getJ kvs "post_id")) h
  have h2 := truthy_pyOr_false h1.2
  rw [seenIdOf, pyOr, if_neg (by simp [h1.1])]
  exact h2.1

/-- Claim C5: for every extracted listing object the resolved link follows the
strict precedence `canonical_path`, then `path`, then `url`, then the
synthesized title+id slug path (title key present, truthy id), then the
id-only path; and a resolved path not starting with `http` is prefixed with
the fixed origin `https://poshmark.com`. -/
theorem C5_path_precedence_and_absolutization :
    (∀ (kvs : JObj) (v : Json), JObj.lookup "canonical_path" kvs = some v →
      resolvedPath kvs = v)
  ∧ (∀ (kvs : JObj) (v : Json), JObj.lookup "canonical_path" kvs = none →
      JObj.lookup "path" kvs = some v → resolvedPath kvs = v)
  ∧ (∀ (kvs : JObj) (v : Json), JObj.lookup "canonical_path" kvs = none →
      JObj.lookup "path" kvs = none → JObj.lookup "url" kvs = some v →
      resolvedPath kvs = v)
  ∧ (∀ (kvs : JObj) (t : String), JObj.lookup "canonical_path" kvs = none →
      JObj.lookup "path" kvs = none → JObj.lookup "url" kvs = none →
      JObj.lookup "title" kvs = some (Json.str t) →
      truthy (listingIdOf kvs) = true →
      resolvedPath kvs
        = Json.str ("/listing/" ++ title_slug t ++ "-" ++ pyStr (listingIdOf kvs)))
  ∧ (∀ (kvs : JObj), JObj.lookup "canonical_path" kvs = none →
      JObj.lookup "path" kvs = none → JObj.lookup "url" kvs = none →
      JObj.lookup "title" kvs = none →
      truthy (listingIdOf kvs) = true →
      resolvedPath kvs = Json.str ("/listing/" ++ pyStr (listingIdOf kvs)))
  ∧ (∀ (kvs : JObj) (p : String), resolvedPath kvs = Json.str p → p ≠ "" →
      linkOf (Json.obj kvs)
        = some (if strStartsWith p "http" then p else "https://poshmark.com" ++ p)) := by
  refine ⟨?_, ?_, ?_, ?_, ?_, ?_⟩
  · intro kvs v h
    simp [resolvedPath, hasKey, getJ, h]
  · intro kvs v h1 h2
    simp [resolvedPath, hasKey, getJ, h1, h2]
  · intro kvs v h1 h2 h3
    simp [resolvedPath, hasKey, getJ, h1, h2, h3]
  · intro kvs t h1 h2 h3 h4 hid
    simp [resolvedPath, hasKey, getJ, h1, h2, h3, h4, hid]
  · intro kvs h1 h2 h3 h4 hid
    simp [resolvedPath, hasKey, getJ, h1, h2, h3, h4, hid]
  · intro kvs p h hp
    simp [linkOf, h, hp, absolutize]

theorem C5_path_precedence_and_absolutization_witness :
    resolvedPath (JObj.cons "canonical_path" (Json.str "/x")
        (JObj.cons "path" (Json.str "/y") JObj.nil)) = Json.str "/x"
  ∧ linkOf (Json.obj (JObj.cons "canonical_path" (Json.str "/x")
        (JObj.cons "path" (Json.str "/y") JObj.nil)))
      = some "https://poshmark.com/x"
  ∧ resolvedPath (JObj.cons "url" (Json.str "http://e.com/z") JObj.nil)
      = Json.str "http://e.com/z" := by
  refine ⟨?_, ?_, ?_⟩
  · exact C5_path_precedence_and_absolutization.1 _ _ (by decide)
  · have h := C5_path_precedence_and_absolutization.2.2.2.2.2
      (JObj.cons "canonical_path" (Json.str "/x")
        (JObj.cons "path" (Json.str "/y") JObj.nil)) "/x"
      (C5_path_precedence_and_absolutization.1 _ _ (by decide)) (by decide)
    simpa using h
  · exact C5_path_precedence_and_absolutization.2.2.1 _ _ (by decide) (by decide) (by decide)

/-- Claim C2 (corrected): the slug built for a listing with a `title` and a
truthy id but no path keys removes every character that is not ASCII
alphanumeric, whitespace, underscore or hyphen, strips surrounding
whitespace and turns each space into a hyphen, but performs NO lowercasing;
the produced path is `/listing/<slug(title)>-<id>` with the title's case
preserved. -/
theorem C2_slug_path_no_lowercasing :
    (∀ t : String, title_slug t = slugSpec t)
  ∧ (∀ (kvs : JObj) (t : String), JObj.lookup "canonical_path" kvs = none →
      JObj.lookup "path" kvs = none → JObj.lookup "url" kvs = none →
      JObj.lookup "title" kvs = some (Json.str t) →
      truthy (listingIdOf kvs) = true →
      resolvedPath kvs
        = Json.str ("/listing/" ++ slugSpec t ++ "-" ++ pyStr (listingIdOf kvs))) := by
  have hfun : (fun c => isPyWordChar c || isPySpace c || c = '-')
      = fun c => c.isAlphanum || isPySpace c || c = '_' || c = '-' := by
    funext c
    simp only [isPyWordChar]
    cases c.isAlphanum <;> cases isPySpace c <;> simp
  have hslug : ∀ t : String, title_slug t = slugSpec t := by
    intro t
    rw [title_slug, slugSpec, hfun]
  refine ⟨hslug, ?_⟩
  intro kvs t h1 h2 h3 h4 hid
  rw [← hslug]
  simp [resolvedPath, hasKey, getJ, h1, h2, h3, h4, hid]

theorem C2_slug_path_no_lowercasing_witness :
    title_slug "Hello World" = slugSpec "Hello World"
  ∧ resolvedPath (JObj.cons "title" (Json.str " My  Bag!") (JObj.cons "id" (Json.num 7) JObj.nil))
      = Json.str ("/listing/" ++ slugSpec " My  Bag!" ++ "-" ++
          pyStr (listingIdOf (JObj.cons "title" (Json.str " My  Bag!")
            (JObj.cons "id" (Json.num 7) JObj.nil)))) := by
  refine ⟨C2_slug_path_no_lowercasing.1 _, ?_⟩
  exact C2_slug_path_no_lowercasing.2 _ " My  Bag!"
    (by decide) (by decide) (by decide) (by decide) (by decide)

/-- Claim C2's original wording is false on the code: the slug preserves
case, so the title `Hello World` with id `123` produces
`/listing/Hello-World-123` and not the lowercased `/listing/hello-world-123`. -/
theorem C2_counterexample :
    resolvedPath (JObj.cons "title" (Json.str "Hello World")
        (JObj.cons "id" (Json.num 123) JObj.nil))
      = Json.str "/listing/Hello-World-123"
  ∧ resolvedPath (JObj.cons "title" (Json.str "Hello World")
        (JObj.cons "id" (Json.num 123) JObj.nil))
      ≠ Json.str "/listing/hello-world-123" := by
  decide

/-- Claim C10: a listing object carrying a `title` key but no resolvable
(truthy) id and none of the path keys contributes no link: its resolved path
is falsy, the listing is skipped without effect, and the walk continues with
the remaining listings unchanged. -/
theorem C10_titled_listing_without_id_skipped :
    ∀ (kvs : JObj) (rest : List Json) (links : List String) (seen : List Json),
      JObj.lookup "canonical_path" kvs = none →
      JObj.lookup "path" kvs = none →
      JObj.lookup "url" kvs = none →
      hasKey kvs "title" = true →
      truthy (listingIdOf kvs) = false →
      linkOf (Json.obj kvs) = none
      ∧ processPageListings (Json.obj kvs :: rest) links seen
          = processPageListings rest links seen := by
  intro kvs rest links seen h1 h2 h3 ht hid
  have hres : resolvedPath kvs = Json.null := by
    simp [resolvedPath, hasKey, getJ, h1, h2, h3, hid]
  have hlink : linkOf (Json.obj kvs) = none := by
    simp [linkOf, hres]
  refine ⟨hlink, ?_⟩
  have hseen : truthy (seenIdOf kvs) = false := seenIdOf_falsy hid
  simp [processPageListings, hlink, hseen]

theorem C10_titled_listing_without_id_skipped_witness :
    linkOf (Json.obj (JObj.cons "title" (Json.str "T") JObj.nil)) = none
  ∧ processPageListings [Json.obj (JObj.cons "title" (Json.str "T") JObj.nil)] [] []
      = processPageListings [] [] [] :=
  C10_titled_listing_without_id_skipped (JObj.cons "title" (Json.str "T") JObj.nil)
    [] [] [] (by decide) (by decide) (by decide) (by decide) (by decide)

/-- Claim C3: the synthesized fallback cursor is the literal marker `ENC_`
followed by the padding-stripped base64 of the `json.dumps` serialization of
the object with fields `max_ids = [48*(page_num-1)]`, `page_num`,
`page_group_id`; for `page_group_id = "abc"` and page 3 the payload decodes
exactly to the serialization of
`{"max_ids": [96], "page_num": 3, "page_group_id": "abc"}`. -/
theorem C3_fallback_cursor_encoding :
    (∀ (pn : Nat) (pgid : String), (synthCursor pn pgid).data.take 4 = "ENC_".data)
  ∧ base64DecodeNoPadL ((synthCursor 3 "abc").data.drop 4)
      = strBytes (dumpsMaxIdData 3 "abc")
  ∧ dumpsMaxIdData 3 "abc"
      = "\x7b\"max_ids\": [96], \"page_num\": 3, \"page_group_id\": \"abc\"\x7d" := by
  refine ⟨?_, by decide, by decide⟩
  intro pn pgid
  have h : (synthCursor pn pgid).data
      = "ENC_".data ++ (rstripEq (base64Encode (strBytes (dumpsMaxIdData pn pgid)))).data := by
    simp [synthCursor]
  rw [h]
  exact List.take_left' rfl

theorem extractO_append : ∀ (a b : JObj) (d : Nat),
    extractO (a.append b) d = extractO a d ++ extractO b d
  | JObj.nil, b, d => by simp [JObj.append, extractO]
  | JObj.cons k v tl, b, d => by
      simp [JObj.append, extractO, extractO_append tl b d]

def c4x : Json := Json.obj (JObj.cons "id" (Json.num 1) JObj.nil)

def c4y : Json := Json.obj (JObj.cons "id" (Json.num 2) JObj.nil)

def c4doc : Json :=
  Json.obj (JObj.cons "a"
    (Json.obj (JObj.cons "posts" (Json.arr (JList.cons c4x JList.nil)) JObj.nil))
    (JObj.cons "b"
      (Json.obj (JObj.cons "posts" (Json.arr (JList.cons c4y JList.nil)) JObj.nil))
      JObj.nil))

/-- Claim C4's original wording is false on the code: in a document where two
sibling branches each hold a `posts` sequence, `extract_listings` returns the
concatenation of both, not "exactly the first such sequence encountered". -/
theorem C4_counterexample :
    extract_listings c4doc 0 = [c4x, c4y]
  ∧ extract_listings c4doc 0 ≠ [c4x] := by
  decide

/-- Claim C4 (corrected): within a single mapping inside the depth bound the
keys `posts`, `data`, `listings` are tried in that fixed order and the first
one bound to a sequence is returned exactly, with no further descent; the
recursive descent over a mapping's items contributes nothing from a binding
whose key is `metadata`, `facets` or `summaries` (such a subtree is skipped
outright, so a candidate sequence lying under it is never discovered); but
candidate sequences reachable in distinct sibling branches are concatenated
in traversal order rather than first-match-wins across the whole document. -/
theorem C4_first_match_per_mapping_and_exclusions :
    (∀ (kvs : JObj) (l : JList) (d : Nat), d ≤ 10 →
      JObj.lookup "posts" kvs = some (Json.arr l) →
      extract_listings (Json.obj kvs) d = l.toList)
  ∧ (∀ (kvs : JObj) (l : JList) (d : Nat), d ≤ 10 →
      (∀ xs, JObj.lookup "posts" kvs ≠ some (Json.arr xs)) →
      JObj.lookup "data" kvs = some (Json.arr l) →
      extract_listings (Json.obj kvs) d = l.toList)
  ∧ (∀ (kvs : JObj) (l : JList) (d : Nat), d ≤ 10 →
      (∀ xs, JObj.lookup "posts" kvs ≠ some (Json.arr xs)) →
      (∀ xs, JObj.lookup "data" kvs ≠ some (Json.arr xs)) →
      JObj.lookup "listings" kvs = some (Json.arr l) →
      extract_listings (Json.obj kvs) d = l.toList)
  ∧ (∀ (pre post : JObj) (k : String) (v : Json) (d : Nat), k ∈ excludedKeys →
      extractO (pre.append (JObj.cons k v post)) d = extractO (pre.append post) d) := by
  refine ⟨?_, ?_, ?_, ?_⟩
  · intro kvs l d hd h
    have hd10 : ¬ d > 10 := by omega
    rw [extract_listings]
    simp [hd10, h]
  · intro kvs l d hd hposts h
    have hd10 : ¬ d > 10 := by omega
    rw [extract_listings]
    rcases h2 : JObj.lookup "posts" kvs with _ | v
    · simp [hd10, h2, h]
    · cases v <;> first
        | exact absurd h2 (hposts _)
        | simp [hd10, h2, h]
  · intro kvs l d hd hposts hdata h
    have hd10 : ¬ d > 10 := by omega
    rw [extract_listings]
    rcases h2 : JObj.lookup "posts" kvs with _ | v
    · rcases h3 : JObj.lookup "data" kvs with _ | v2
      · simp [hd10, h2, h3, h]
      · cases v2 <;> first
          | exact absurd h3 (hdata _)
          | simp [hd10, h2, h3, h]
    · cases v
      case arr xs => exact absurd h2 (hposts xs)
      all_goals
        rcases h3 : JObj.lookup "data" kvs with _ | v2
        case none => simp [hd10, h2, h3, h]
        all_goals
          cases v2 <;> first
            | exact absurd h3 (hdata _)
            | simp [hd10, h2, h3, h]
  · intro pre post k v d hk
    rw [extractO_append, extractO_append]
    simp [extractO, hk]

theorem C4_first_match_per_mapping_and_exclusions_witness :
    extract_listings (Json.obj (JObj.cons "posts"
        (Json.arr (JList.cons (Json.num 7) JList.nil)) JObj.nil)) 0 = [Json.num 7]
  ∧ extractO (JObj.append JObj.nil (JObj.cons "metadata"
        (Json.obj (JObj.cons "posts" (Json.arr (JList.cons (Json.num 8) JList.nil)) JObj.nil))
        JObj.nil)) 1
      = extractO (JObj.append JObj.nil JObj.nil) 1 := by
  refine ⟨?_, ?_⟩
  · exact C4_first_match_per_mapping_and_exclusions.1
      (JObj.cons "posts" (Json.arr (JList.cons (Json.num 7) JList.nil)) JObj.nil)
      (JList.cons (Json.num 7) JList.nil) 0 (by decide) (by decide)
  · exact C4_first_match_per_mapping_and_exclusions.2.2.2 JObj.nil JObj.nil "metadata"
      (Json.obj (JObj.cons "posts" (Json.arr (JList.cons (Json.num 8) JList.nil)) JObj.nil))
      1 (by decide)

mutual

theorem findNext_null_noKeys : ∀ (cur j : Json),
    hasKeyDeep "next_max_id" j = false → hasKeyDeep "max_id" j = false →
    find_next_max_id cur j = Json.null
  | _, Json.null, _, _ => rfl
  | _, Json.bool _, _, _ => rfl
  | _, Json.num _, _, _ => rfl
  | _, Json.str _, _, _ => rfl
  | cur, Json.arr xs, h1, h2 => by
      have hx1 : hasKeyDeepL "next_max_id" xs = false := by simpa [hasKeyDeep] using h1
      have hx2 : hasKeyDeepL "max_id" xs = false := by simpa [hasKeyDeep] using h2
      simpa [find_next_max_id] using findNextL_null_noKeys cur xs hx1 hx2
  | cur, Json.obj kvs, h1, h2 => by
      rw [hasKeyDeep, Bool.or_eq_false_iff] at h1 h2
      have hl1 : JObj.lookup "next_max_id" kvs = none := (hasKey_false_iff _ _).mp h1.1
      have hl2 : JObj.lookup "max_id" kvs = none := (hasKey_false_iff _ _).mp h2.1
      simp [find_next_max_id, hl1, hl2, findNextO_null_noKeys cur kvs h1.2 h2.2]

theorem findNextO_null_noKeys : ∀ (cur : Json) (kvs : JObj),
    hasKeyDeepO "next_max_id" kvs = false → hasKeyDeepO "max_id" kvs = false →
    findNextO cur kvs = Json.null
  | _, JObj.nil, _, _ => rfl
  | cur, JObj.cons k v tl, h1, h2 => by
      rw [hasKeyDeepO, Bool.or_eq_false_iff] at h1 h2
      simp [findNextO, findNext_null_noKeys cur v h1.1 h2.1, truthy,
        findNextO_null_noKeys cur tl h1.2 h2.2]

theorem findNextL_null_noKeys : ∀ (cur : Json) (xs : JList),
    hasKeyDeepL "next_max_id" xs = false → hasKeyDeepL "max_id" xs = false →
    findNextL cur xs = Json.null
  | _, JList.nil, _, _ => rfl
  | cur, JList.cons x tl, h1, h2 => by
      rw [hasKeyDeepL, Bool.or_eq_false_iff] at h1 h2
      simp [findNextL, findNext_null_noKeys cur x h1.1 h2.1, truthy,
        findNextL_null_noKeys cur tl h1.2 h2.2]

end

def c8doc : Json :=
  Json.obj (JObj.cons "a"
    (Json.obj (JObj.cons "max_id" (Json.str "M") JObj.nil))
    (JObj.cons "b"
      (Json.obj (JObj.cons "next_max_id" (Json.str "N") JObj.nil))
      JObj.nil))

/-- Claim C8's original wording is false on the code: the search is a single
combined pass, so a `max_id` (differing from the cursor just used) that
occurs earlier in traversal order wins over a `next_max_id` that occurs in a
later sibling subtree — even though a `next_max_id` key IS present in the
document. -/
theorem C8_counterexample :
    find_next_max_id Json.null c8doc = Json.str "M"
  ∧ hasKeyDeep "next_max_id" c8doc = true
  ∧ find_next_max_id Json.null c8doc ≠ Json.str "N" := by
  decide

/-- Claim C8 (corrected): next-cursor discovery is a single recursive pass in
mapping/array traversal order.  Within one mapping `next_max_id` is preferred
(returned even when falsy); otherwise a present `max_id` whose value differs
from the cursor just used is returned; otherwise the first truthy recursive
result wins — so a `max_id` found earlier in traversal order can win over a
`next_max_id` buried later.  When neither key occurs anywhere the result is
`None`. -/
theorem C8_single_pass_cursor_search :
    (∀ (kvs : JObj) (cur v : Json), JObj.lookup "next_max_id" kvs = some v →
      find_next_max_id cur (Json.obj kvs) = v)
  ∧ (∀ (kvs : JObj) (cur v : Json), JObj.lookup "next_max_id" kvs = none →
      JObj.lookup "max_id" kvs = some v → v ≠ cur →
      find_next_max_id cur (Json.obj kvs) = v)
  ∧ (∀ (j cur : Json), hasKeyDeep "next_max_id" j = false →
      hasKeyDeep "max_id" j = false → find_next_max_id cur j = Json.null) := by
  refine ⟨?_, ?_, ?_⟩
  · intro kvs cur v h
    simp [find_next_max_id, h]
  · intro kvs cur v h1 h2 hne
    simp [find_next_max_id, h1, h2, hne]
  · intro j cur h1 h2
    exact findNext_null_noKeys cur j h1 h2

theorem C8_single_pass_cursor_search_witness :
    find_next_max_id Json.null
        (Json.obj (JObj.cons "next_max_id" (Json.str "Z") JObj.nil)) = Json.str "Z"
  ∧ find_next_max_id Json.null
        (Json.obj (JObj.cons "max_id" (Json.str "M2") JObj.nil)) = Json.str "M2"
  ∧ find_next_max_id (Json.str "c") (Json.num 5) = Json.null := by
  refine ⟨?_, ?_, ?_⟩
  · exact C8_single_pass_cursor_search.1
      (JObj.cons "next_max_id" (Json.str "Z") JObj.nil) Json.null _ (by decide)
  · exact C8_single_pass_cursor_search.2.1
      (JObj.cons "max_id" (Json.str "M2") JObj.nil) Json.null _ (by decide) (by decide)
      (by decide)
  · exact C8_single_pass_cursor_search.2.2 (Json.num 5) (Json.str "c")
      (by decide) (by decide)

theorem mem_processPage_links (pl : List Json) :
    ∀ (links : List String) (seen : List Json) (u : String),
      u ∈ links → u ∈ (processPageListings pl links seen).1 := by
  induction pl with
  | nil => intro links seen u h; simpa [processPageListings] using h
  | cons l rest ih =>
      intro links seen u h
      cases l
      case obj kvs =>
        simp only [processPageListings]
        cases hl : linkOf (Json.obj kvs) with
        | some url =>
            by_cases hm : url ∈ links
            · simpa [hl, hm] using ih links _ u h
            · simpa [hl, hm] using ih (links ++ [url]) _ u (by simp [h])
        | none => simpa [hl] using ih links _ u h
      all_goals simpa [processPageListings] using ih links seen u h

theorem linkOf_mem_processPage (pl : List Json) :
    ∀ (links : List String) (seen : List Json) (l : Json) (u : String),
      l ∈ pl → linkOf l = some u → u ∈ (processPageListings pl links seen).1 := by
  induction pl with
  | nil => intro _ _ l u h _; cases h
  | cons hd rest ih =>
      intro links seen l u hmem hl
      rcases List.mem_cons.mp hmem with rfl | hmem2
      · cases l
        case obj kvs =>
          simp only [processPageListings]
          rw [hl]
          by_cases hm : u ∈ links
          · simpa [hm] using mem_processPage_links rest links _ u hm
          · simpa [hm] using mem_processPage_links rest (links ++ [u]) _ u (by simp)
        all_goals simp [linkOf] at hl
      · cases hd
        case obj kvs =>
          simp only [processPageListings]
          cases hl2 : linkOf (Json.obj kvs) with
          | some url =>
              by_cases hm : url ∈ links
              · simpa [hl2, hm] using ih links _ l u hmem2 hl
              · simpa [hl2, hm] using ih (links ++ [url]) _ l u hmem2 hl
          | none => simpa [hl2] using ih links _ l u hmem2 hl
        all_goals simpa [processPageListings] using ih links seen l u hmem2 hl

theorem processPage_links_noNew (pl : List Json) :
    ∀ (links : List String) (seen : List Json),
      (∀ l ∈ pl, ∀ u, linkOf l = some u → u ∈ links) →
      (processPageListings pl links seen).1 = links := by
  induction pl with
  | nil => intro links seen _; simp [processPageListings]
  | cons hd rest ih =>
      intro links seen h
      cases hd
      case obj kvs =>
        simp only [processPageListings]
        cases hl : linkOf (Json.obj kvs) with
        | some url =>
            have hm : url ∈ links := h _ (by simp) url hl
            simpa [hl, hm] using ih links _ fun l hm2 u hu => h l (by simp [hm2]) u hu
        | none =>
            simpa [hl] using ih links _ fun l hm2 u hu => h l (by simp [hm2]) u hu
      all_goals
        simpa [processPageListings] using ih links seen fun l hm2 u hu => h l (by simp [hm2]) u hu

theorem processPage_links_seen (pl : List Json) :
    ∀ (links : List String) (s1 s2 : List Json),
      (processPageListings pl links s1).1 = (processPageListings pl links s2).1 := by
  induction pl with
  | nil => intro links s1 s2; simp [processPageListings]
  | cons hd rest ih =>
      intro links s1 s2
      cases hd
      case obj kvs =>
        simp only [processPageListings]
        cases hl : linkOf (Json.obj kvs) with
        | some url =>
            by_cases hm : url ∈ links
            · simpa [hl, hm] using ih links _ _
            · simpa [hl, hm] using ih (links ++ [url]) _ _
        | none => simpa [hl] using ih links _ _
      all_goals simpa [processPageListings] using ih links _ _

/-- Claim C6: re-running the per-page listing walk on the same listings over
the already-updated `accumulated_links` never changes those links (the second
pass appends nothing), and the produced links are entirely independent of the
`seen_ids` set — deduplication is by exact URL string membership, not by
listing id. -/
theorem C6_dedup_idempotent_by_url :
    (∀ (pl : List Json) (links : List String) (seen seen2 : List Json),
      (processPageListings pl (processPageListings pl links seen).1 seen2).1
        = (processPageListings pl links seen).1)
  ∧ (∀ (pl : List Json) (links : List String) (s1 s2 : List Json),
      (processPageListings pl links s1).1 = (processPageListings pl links s2).1) := by
  constructor
  · intro pl links seen seen2
    apply processPage_links_noNew
    intro l hmem u hu
    exact linkOf_mem_processPage pl links seen l u hmem hu
  · intro pl links s1 s2
    exact processPage_links_seen pl links s1 s2

/-- Claim C7: the loop's consecutive-empty counter resets to 0 on every page
with at least one extracted listing and increments on every empty page; two
consecutive empty pages halt the loop right there — whatever fetches would
follow are never consumed — and the state keeps exactly the links accumulated
so far. -/
theorem C7_empty_streak_halts_at_two :
    (∀ (st : PagingState) (data : Json), (extract_listings data 0).isEmpty = false →
      (pageStep st data).1.consecutiveEmpty = 0)
  ∧ (∀ (st : PagingState) (data : Json), (extract_listings data 0).isEmpty = true →
      (pageStep st data).1.consecutiveEmpty = st.consecutiveEmpty + 1)
  ∧ (∀ (mp : Nat) (st : PagingState) (p1 p2 : Json) (rest : List (Option Json)),
      st.consecutiveEmpty = 0 → st.pageNum ≤ mp → st.pageNum + 1 ≤ mp →
      (extract_listings p1 0).isEmpty = true → (extract_listings p2 0).isEmpty = true →
      pagingLoop mp st (some p1 :: some p2 :: rest)
        = { st with consecutiveEmpty := 2, pageNum := st.pageNum + 1 }) := by
  refine ⟨?_, ?_, ?_⟩
  · intro st data h
    have hc : ¬ ((extract_listings data 0).isEmpty = true) := by simp [h]
    simp only [pageStep]
    rw [if_neg hc]
    split
    · rfl
    · split <;> rfl
  · intro st data h
    simp only [pageStep]
    rw [if_pos h]
    split <;> rfl
  · intro mp st p1 p2 rest h0 h2 h3 hp1 hp2
    obtain ⟨ls, sn, mi, pn, ce⟩ := st
    simp only at h0 h2 h3
    subst h0
    simp [pagingLoop, pageStep, hp1, hp2, Nat.not_lt.mpr h2, Nat.not_lt.mpr h3]

theorem C7_empty_streak_halts_at_two_witness :
    (pageStep { links := ["u"], seen := [], maxId := Json.null, pageNum := 1, consecutiveEmpty := 0 }
        (Json.num 0)).1.consecutiveEmpty = 0 + 1
  ∧ pagingLoop 10 { links := ["u"], seen := [], maxId := Json.null, pageNum := 1, consecutiveEmpty := 0 }
        [some (Json.num 0), some (Json.num 0)]
      = { links := ["u"], seen := [], maxId := Json.null, pageNum := 2, consecutiveEmpty := 2 } := by
  constructor
  · exact C7_empty_streak_halts_at_two.2.1 _ (Json.num 0) (by decide)
  · exact C7_empty_streak_halts_at_two.2.2 10 _ (Json.num 0) (Json.num 0) []
      (by decide) (by decide) (by decide) (by decide) (by decide)

/-- Claim C1 (corrected): a page contributing strictly fewer than 48 new
links terminates the loop after that page only when the response yields no
fresh cursor — `find_next_max_id` falsy, or equal to the cursor just used;
whatever fetches would follow are then never consumed.  (When a fresh
`next_max_id` is present the loop continues despite the short page; see the
counterexample.) -/
theorem C1_short_page_without_fresh_cursor_halts :
    ∀ (mp : Nat) (st : PagingState) (data : Json) (rest : List (Option Json)),
      st.pageNum ≤ mp →
      (extract_listings data 0).isEmpty = false →
      (truthy (nextCursorOf st.maxId data) = false ∨ nextCursorOf st.maxId data = st.maxId) →
      (processPageListings (extract_listings data 0) st.links st.seen).2.2 < 48 →
      pagingLoop mp st (some data :: rest) = (pageStep st data).1
      ∧ (pageStep st data).2 = true := by
  intro mp st data rest h1 h2 h3 h4
  have hguard : ¬ (truthy (nextCursorOf st.maxId data) = true
      ∧ nextCursorOf st.maxId data ≠ st.maxId) := by
    rcases h3 with h | h
    · intro hc; rw [hc.1] at h; cases h
    · intro hc; exact hc.2 h
  have h5 : (pageStep st data).2 = true := by
    simp only [pageStep, h2]
    simp [hguard, h4]
  refine ⟨?_, h5⟩
  simp only [pagingLoop]
  rw [if_neg (Nat.not_lt.mpr h1)]
  simp [h5]

def c1wpage : Json :=
  Json.obj (JObj.cons "posts"
    (Json.arr (JList.cons
      (Json.obj (JObj.cons "canonical_path" (Json.str "/p1") JObj.nil)) JList.nil))
    JObj.nil)

theorem C1_short_page_without_fresh_cursor_halts_witness :
    pagingLoop 10 { links := [], seen := [], maxId := Json.null, pageNum := 1, consecutiveEmpty := 0 }
        [some c1wpage]
      = (pageStep { links := [], seen := [], maxId := Json.null, pageNum := 1, consecutiveEmpty := 0 }
          c1wpage).1
  ∧ (pageStep { links := [], seen := [], maxId := Json.null, pageNum := 1, consecutiveEmpty := 0 }
      c1wpage).2 = true :=
  C1_short_page_without_fresh_cursor_halts 10
    { links := [], seen := [], maxId := Json.null, pageNum := 1, consecutiveEmpty := 0 }
    c1wpage [] (by decide) (by decide) (Or.inl (by decide)) (by decide)

def c1paths : List String :=
  ["/a0", "/a1", "/a2", "/a3", "/a4", "/a5", "/a6", "/a7", "/a8", "/a9"]

def c1page1 : Json :=
  Json.obj (JObj.cons "posts"
    (Json.arr (JList.ofList (c1paths.map fun p =>
      Json.obj (JObj.cons "canonical_path" (Json.str p) JObj.nil))))
    (JObj.cons "next_max_id" (Json.str "X") JObj.nil))

def c1page2 : Json :=
  Json.obj (JObj.cons "posts"
    (Json.arr (JList.cons
      (Json.obj (JObj.cons "canonical_path" (Json.str "/b") JObj.nil)) JList.nil))
    JObj.nil)

/-- Claim C1's original wording is false on the code: a page adding only 10
new links (fewer than 48) whose response carries a truthy `next_max_id` does
NOT terminate the loop — the next page is fetched and processed, growing the
link list to 11. -/
theorem C1_counterexample :
    (processPageListings (extract_listings c1page1 0) [] []).2.2 = 10
  ∧ truthy (nextCursorOf Json.null c1page1) = true
  ∧ (pagingLoop 10 { links := [], seen := [], maxId := Json.null, pageNum := 1, consecutiveEmpty := 0 }
      [some c1page1, some c1page2]).links.length = 11 := by
  decide

theorem mem_pageStep_links (st : PagingState) (data : Json) (u : String)
    (h : u ∈ st.links) : u ∈ (pageStep st data).1.links := by
  by_cases hE : (extract_listings data 0).isEmpty = true
  · simp only [pageStep]
    rw [if_pos hE]
    split <;> simpa using h
  · simp only [pageStep]
    rw [if_neg hE]
    split
    · simpa using mem_processPage_links _ _ _ _ h
    · split
      · simpa using mem_processPage_links _ _ _ _ h
      · simpa using mem_processPage_links _ _ _ _ h

theorem mem_pagingLoop_links (mp : Nat) (ps : List (Option Json)) :
    ∀ (st : PagingState) (u : String), u ∈ st.links → u ∈ (pagingLoop mp st ps).links := by
  induction ps with
  | nil => intro st u h; simpa [pagingLoop] using h
  | cons p rest ih =>
      intro st u h
      simp only [pagingLoop]
      by_cases hpn : mp < st.pageNum
      · simpa [hpn] using h
      · cases p with
        | none => simpa [hpn] using h
        | some data =>
            by_cases hbrk : (pageStep st data).2 = true
            · simpa [hpn, hbrk] using mem_pageStep_links st data u h
            · simpa [hpn, hbrk] using ih _ u (mem_pageStep_links st data u h)

theorem appendHtmlUrls_cons (v : String) (rest : List String) (acc : List String) :
    appendHtmlUrls (v :: rest) acc
      = appendHtmlUrls rest
          (if (if strStartsWith v "http" then v else "https://poshmark.com" ++ v) ∈ acc
           then acc
           else acc ++ [if strStartsWith v "http" then v else "https://poshmark.com" ++ v]) := rfl

theorem mem_appendHtmlUrls_self (urls : List String) :
    ∀ (acc : List String) (u : String), u ∈ acc → u ∈ appendHtmlUrls urls acc := by
  induction urls with
  | nil => intro acc u h; simpa [appendHtmlUrls] using h
  | cons v rest ih =>
      intro acc u h
      rw [appendHtmlUrls_cons]
      apply ih
      split <;> split <;> simp [h]

theorem mem_appendHtmlUrls_of (urls : List String) :
    ∀ (acc : List String) (u : String), u ∈ urls →
      (if strStartsWith u "http" then u else "https://poshmark.com" ++ u) ∈ appendHtmlUrls urls acc := by
  induction urls with
  | nil => intro _ u h; cases h
  | cons v rest ih =>
      intro acc u h
      rcases List.mem_cons.mp h with rfl | h2
      · rw [appendHtmlUrls_cons]
        apply mem_appendHtmlUrls_self
        split <;> split <;> simp_all
      · rw [appendHtmlUrls_cons]
        exact ih _ u h2

theorem takeWhile_notQuote_ne_nil (r : List Char) (g : String)
    (hex : ∃ _ : 0 < r.length, isQuoteChar r[0] = false)
    (h : List.takeWhile (fun ch => !isQuoteChar ch) r = g.data) : ¬ g.data = [] := by
  obtain ⟨hl, hq⟩ := hex
  cases r with
  | nil => simp at hl
  | cons c0 rr =>
      simp only [List.getElem_cons_zero] at hq
      rw [List.takeWhile_cons] at h
      simp [hq] at h
      intro hcon
      rw [hcon] at h
      cases h

theorem matchPgidAt_ne_empty :
    ∀ (cs : List Char) (g : String), matchPgidAt cs = some g → g ≠ "" := by
  intro cs g h
  cases cs with
  | nil => simp [matchPgidAt] at h
  | cons q1 r1 =>
      simp only [matchPgidAt] at h
      repeat' split at h
      all_goals (try simp_all [String.ext_iff])
      all_goals
        exact takeWhile_notQuote_ne_nil _ g (by assumption) (by assumption)

theorem findPgidAux_ne_empty :
    ∀ (f : Nat) (cs : List Char) (g : String), findPgidAux f cs = some g → g ≠ "" := by
  intro f
  induction f with
  | zero => intro cs g h; simp [findPgidAux] at h
  | succ f ih =>
      intro cs g h
      cases cs with
      | nil => simp [findPgidAux] at h
      | cons c rest =>
          simp only [findPgidAux] at h
          cases hm : matchPgidAt (c :: rest) with
          | some g2 =>
              rw [hm] at h
              cases h
              exact matchPgidAt_ne_empty _ _ hm
          | none =>
              rw [hm] at h
              exact ih rest g h

theorem findPgid_ne_empty {s g : String} (h : findPgid s = some g) : g ≠ "" :=
  findPgidAux_ne_empty s.length s.data g h

/-- Claim C9 (corrected): when the primary loop ends with fewer than 50
accumulated links, the raw-document `/listing/...` scan runs over the body of
the *initially fetched* storefront page (`response.text`), not the
last-fetched API page, and every scanned path joins the result as an absolute
URL; recovery and the page-2 restart happen only when both `max_id` and
`page_group_id` are falsy and at least one link exists — then, with a
`page_group_id` recovered by the regex from that same initial body (and the
extra API call failing), paging restarts from page 2 with the empty streak
reset, provided the loop's page counter did not exceed the ceiling; with 50
or more links the fallback does nothing. -/
theorem C9_fallback_scan_and_restart :
    (∀ (htmlText : String) (retryResp : Option Json)
       (restartPages : List (Option FetchedPage)) (mp : Nat) (st : PagingState)
       (pgid : Json) (u : String),
      st.links.length < 50 → u ∈ findListingUrls htmlText →
      (if strStartsWith u "http" then u else "https://poshmark.com" ++ u)
        ∈ fallbackPhase htmlText retryResp restartPages mp st pgid)
  ∧ (∀ (htmlText : String) (restartPages : List (Option FetchedPage)) (mp : Nat)
       (st : PagingState) (pgid : Json) (g : String),
      st.links.length < 50 → truthy st.maxId = false → truthy pgid = false →
      0 < (appendHtmlUrls (findListingUrls htmlText) st.links).length →
      findPgid htmlText = some g → st.pageNum ≤ mp →
      fallbackPhase htmlText none restartPages mp st pgid
        = (pagingLoop mp
            { links := appendHtmlUrls (findListingUrls htmlText) st.links,
              seen := st.seen, maxId := st.maxId, pageNum := 2, consecutiveEmpty := 0 }
            (restartPages.map (Option.map FetchedPage.jsonOf))).links)
  ∧ (∀ (htmlText : String) (retryResp : Option Json)
       (restartPages : List (Option FetchedPage)) (mp : Nat) (st : PagingState)
       (pgid : Json),
      ¬ st.links.length < 50 →
      fallbackPhase htmlText retryResp restartPages mp st pgid = st.links) := by
  refine ⟨?_, ?_, ?_⟩
  · intro htmlText retryResp restartPages mp st pgid u h50 hu
    have hbase : (if strStartsWith u "http" then u else "https://poshmark.com" ++ u)
        ∈ appendHtmlUrls (findListingUrls htmlText) st.links :=
      mem_appendHtmlUrls_of _ _ _ hu
    simp only [fallbackPhase]
    rw [if_pos h50]
    split
    · split
      · exact mem_pagingLoop_links _ _ _ _ hbase
      · exact hbase
    · exact hbase
  · intro htmlText restartPages mp st pgid g h50 hmx hpg hlen hfind hpn
    simp only [fallbackPhase]
    rw [if_pos h50]
    rw [if_pos (show ¬ truthy st.maxId = true ∧ ¬ truthy pgid = true
        ∧ 0 < (appendHtmlUrls (findListingUrls htmlText) st.links).length from
      ⟨by simp [hmx], by simp [hpg], hlen⟩)]
    rw [hfind]
    have htr : truthy (Json.str g) = true := by
      have := findPgid_ne_empty hfind
      simp [truthy, this]
    rw [if_pos (show (truthy st.maxId = true ∨ truthy (Json.str g) = true)
        ∧ st.pageNum ≤ mp from ⟨Or.inr htr, hpn⟩)]
  · intro htmlText retryResp restartPages mp st pgid h50
    simp only [fallbackPhase]
    rw [if_neg h50]

theorem C9_fallback_scan_and_restart_witness :
    ("https://poshmark.com/listing/w1"
      ∈ fallbackPhase "q /listing/w1 e" none []
          5 { links := [], seen := [], maxId := Json.null, pageNum := 3, consecutiveEmpty := 0 }
          Json.null)
  ∧ fallbackPhase "q /listing/w1 e \"page_group_id\": \"G\"" none [] 5
        { links := [], seen := [], maxId := Json.null, pageNum := 3, consecutiveEmpty := 0 }
        Json.null
      = (pagingLoop 5
          { links := appendHtmlUrls (findListingUrls "q /listing/w1 e \"page_group_id\": \"G\"") [],
            seen := [], maxId := Json.null, pageNum := 2, consecutiveEmpty := 0 }
          ([].map (Option.map FetchedPage.jsonOf))).links
  ∧ fallbackPhase "x" none [] 5
        { links := List.replicate 50 "u", seen := [], maxId := Json.null, pageNum := 3,
          consecutiveEmpty := 0 }
        Json.null
      = List.replicate 50 "u" := by
  refine ⟨?_, ?_, ?_⟩
  · have h := C9_fallback_scan_and_restart.1 "q /listing/w1 e" none [] 5
      { links := [], seen := [], maxId := Json.null, pageNum := 3, consecutiveEmpty := 0 }
      Json.null "/listing/w1" (by decide) (by decide)
    have hs : strStartsWith "/listing/w1" "http" = false := by decide
    simpa [hs] using h
  · exact C9_fallback_scan_and_restart.2.1 "q /listing/w1 e \"page_group_id\": \"G\"" [] 5
      { links := [], seen := [], maxId := Json.null, pageNum := 3, consecutiveEmpty := 0 }
      Json.null "G" (by decide) (by decide) (by decide) (by decide) (by decide) (by decide)
  · exact C9_fallback_scan_and_restart.2.2 "x" none [] 5
      { links := List.replicate 50 "u", seen := [], maxId := Json.null, pageNum := 3,
        consecutiveEmpty := 0 }
      Json.null (by decide)

def c9pageBody : String := "zz /listing/lastpageonly zz"

def c9html : String := "x /listing/htmlonly1 y"

/-- Claim C9's original wording is false on the code: the raw-document scan
reads the initially fetched storefront body, not "the last-fetched page's
body".  In a run whose last-fetched API page's raw body contains a scannable
`/listing/...` path while the initial storefront body contains a different
one, only the initial body's path is appended. -/
theorem C9_counterexample :
    findListingUrls c9pageBody = ["/listing/lastpageonly"]
  ∧ ("https://poshmark.com/listing/htmlonly1"
      ∈ get_listing_links true c9html [] none
          [some { body := c9pageBody, json := Json.obj JObj.nil }] none [] 1)
  ∧ ("https://poshmark.com/listing/lastpageonly"
      ∉ get_listing_links true c9html [] none
          [some { body := c9pageBody, json := Json.obj JObj.nil }] none [] 1) := by
  decide
